import Mathlib

/-!
Verification of the SCION endhost path daemon (`endhost/sciond.py`).

The Python source is shallowly embedded: every method of `SCIONDaemon`
that the claims touch is translated into an executable Lean definition.
Mutable state (the three `PathSegmentDB` stores, the request coordinator,
wall-clock time, `threading.Event` handles) is made explicit: stores are
lists of segments passed in and returned, submitted coordinator requests
accumulate in an output list, and time instants are explicit `Int`
parameters.  Library collaborators that live outside the daemon module
(`lib.path_db`, `lib.crypto.hash_chain`, `threading.Event`, the path
combinator) are modelled from the specification, each marked as such in
its doc comment.
-/

namespace Sciond

/-- One hop marking of a PCB (`isd_id`, `ad_id` of a PCBM). -/
structure PCBM where
  isd_id : Nat
  ad_id : Nat
deriving DecidableEq, Repr

/-- Path segment (PCB) as the daemon sees it: endpoint markings via
`get_first_pcbm` and `get_last_pcbm`, interface tokens via
`get_all_iftokens`, and the identity `get_hops_hash`.  Tokens and the
hash are opaque and modelled as naturals. -/
structure PathSegment where
  first_pcbm : PCBM
  last_pcbm : PCBM
  iftokens : List Nat
  hops_hash : Nat
deriving DecidableEq, Repr

/-- Values of `lib.types.PathSegmentType` (PST).  The four named types
appear in `handle_path_reply`; every other raw value falls into the
final warn-and-drop branch and is collapsed into `invalid`. -/
inductive PST where
  | up
  | down
  | core
  | up_down
  | invalid
deriving DecidableEq, Repr

/-- Request key as built by the daemon: the 5-tuple
`(seg_type, src_isd, src_ad, dst_isd, dst_ad)`. -/
structure ReqKey where
  ptype : PST
  src_isd : Nat
  src_ad : Nat
  dst_isd : Nat
  dst_ad : Nat
deriving DecidableEq, Repr

/-- The three segment stores owned by the daemon
(`self.up_segments`, `self.down_segments`, `self.core_segments`). -/
structure DaemonStores where
  up : List PathSegment
  down : List PathSegment
  core : List PathSegment
deriving DecidableEq, Repr

/-- Number of tokens checked on a revocation
(`SCIONDaemon.N_TOKENS_CHECK`). -/
def N_TOKENS_CHECK : Nat := 20

/-- Max time for a path lookup (`SCIONDaemon.TIMEOUT`), in seconds. -/
def TIMEOUT : Int := 5

/-- Modelled from the spec: `lib.path_db.PathSegmentDB.update` is not
under `src/`; section 4.2 of the spec describes it as insert-or-refresh
keyed by `hops_hash` (identity preserved, metadata replaced). -/
def db_update (db : List PathSegment) (seg : PathSegment) : List PathSegment :=
  if db.any (fun s => s.hops_hash == seg.hops_hash) then
    db.map (fun s => if s.hops_hash == seg.hops_hash then seg else s)
  else
    db ++ [seg]

/-- Modelled from the spec: `lib.path_db.PathSegmentDB.__call__` is not
under `src/`; section 4.2 describes queries as returning all segments
matching every supplied endpoint filter.  TTL expiry is outside the
claims, so a store here holds only live segments. -/
def db_query (db : List PathSegment)
    (first_isd first_ad last_isd last_ad : Option Nat) : List PathSegment :=
  db.filter fun s =>
    (match first_isd with | some v => s.first_pcbm.isd_id == v | none => true) &&
    (match first_ad with | some v => s.first_pcbm.ad_id == v | none => true) &&
    (match last_isd with | some v => s.last_pcbm.isd_id == v | none => true) &&
    (match last_ad with | some v => s.last_pcbm.ad_id == v | none => true)

/-- Modelled from the spec: `lib.path_db.PathSegmentDB.delete_all` is
not under `src/`; section 4.2 describes it as removing entries by
identity and returning how many were present (each present identity
removes its single entry, `hops_hash` being unique within a store). -/
def db_delete_all (db : List PathSegment) (hashes : List Nat) :
    List PathSegment × Nat :=
  let remaining := db.filter fun s => decide (s.hops_hash ∉ hashes)
  (remaining, db.length - remaining.length)

/-- Modelled from the spec: `lib.crypto.hash_chain.HashChain.verify` is
not under `src/`; section 4.1 describes it as iterating the hash
function up to `n` times on the candidate preimage and returning true
iff some iterate equals the committed token. -/
def hash_chain_verify (h : Nat → Nat) (start target : Nat) (n : Nat) : Bool :=
  (List.range n).any fun k => h^[k] start == target

/-- Endpoint pair `(last.isd_id, last.ad_id)` of a segment, compared
against `self.addr.get_isd_ad()` by the classifiers. -/
def lastPair (s : PathSegment) : Nat × Nat :=
  (s.last_pcbm.isd_id, s.last_pcbm.ad_id)

/-- Translation of `SCIONDaemon._handle_up_seg` (sciond.py lines
155 to 160): return the store unchanged unless the local (ISD, AD)
equals the last hop of the PCB, else insert. -/
def handle_up_seg (localIsdAd : Nat × Nat) (upStore : List PathSegment)
    (pcb : PathSegment) : List PathSegment :=
  if localIsdAd ≠ lastPair pcb then upStore
  else db_update upStore pcb

/-- Translation of `SCIONDaemon._handle_down_seg` (sciond.py lines
162 to 167): return the store unchanged when the local (ISD, AD) equals
the last hop of the PCB, else insert. -/
def handle_down_seg (localIsdAd : Nat × Nat) (downStore : List PathSegment)
    (pcb : PathSegment) : List PathSegment :=
  if localIsdAd = lastPair pcb then downStore
  else db_update downStore pcb

/-- Translation of `SCIONDaemon._handle_core_seg` (sciond.py lines
169 to 172): unconditional insert. -/
def handle_core_seg (coreStore : List PathSegment) (pcb : PathSegment) :
    List PathSegment :=
  db_update coreStore pcb

/-- Body of the per-PCB dispatch inside `SCIONDaemon.handle_path_reply`
(sciond.py lines 135 to 150): UP_DOWN goes to both classifiers, UP and
DOWN to one each, CORE to the core store, anything else is dropped with
a warning. -/
def handle_pcb (localIsdAd : Nat × Nat) (ty : PST) (st : DaemonStores)
    (pcb : PathSegment) : DaemonStores :=
  match ty with
  | .up_down =>
      { st with
        up := handle_up_seg localIsdAd st.up pcb,
        down := handle_down_seg localIsdAd st.down pcb }
  | .up => { st with up := handle_up_seg localIsdAd st.up pcb }
  | .down => { st with down := handle_down_seg localIsdAd st.down pcb }
  | .core => { st with core := handle_core_seg st.core pcb }
  | .invalid => st

/-- Translation of `SCIONDaemon.handle_path_reply` (sciond.py lines
129 to 153): fold the dispatch over all PCBs of the reply, then fulfil
the coordinator key derived from the reply info (the returned key
models `self.requests.put((key, None))`). -/
def handle_path_reply (localIsdAd : Nat × Nat) (info : ReqKey)
    (pcbs : List PathSegment) (st : DaemonStores) : DaemonStores × ReqKey :=
  (pcbs.foldl (handle_pcb localIsdAd info.ptype) st, info)

/-- Inner check of `_remove_revoked_pcbs`: does the segment carry an
interface token for which the revocation token verifies within
`N_TOKENS_CHECK` iterations. -/
def seg_revoked (h : Nat → Nat) (rev : Nat) (seg : PathSegment) : Bool :=
  seg.iftokens.any fun ift => hash_chain_verify h rev ift N_TOKENS_CHECK

/-- Translation of `SCIONDaemon._remove_revoked_pcbs` (sciond.py lines
244 to 263): collect the hops hash of every segment once per matching
interface token, then batch-delete. -/
def remove_revoked_pcbs (h : Nat → Nat) (db : List PathSegment) (rev : Nat) :
    List PathSegment × Nat :=
  let to_remove := db.flatMap fun seg =>
    (seg.iftokens.filter fun ift =>
      hash_chain_verify h rev ift N_TOKENS_CHECK).map fun _ => seg.hops_hash
  db_delete_all db to_remove

/-- Translation of `SCIONDaemon.handle_revocation` (sciond.py lines
222 to 242): sweep the up, core and down stores in that order and sum
the reported deletions. -/
def handle_revocation (h : Nat → Nat) (st : DaemonStores) (rev : Nat) :
    DaemonStores × Nat :=
  let u := remove_revoked_pcbs h st.up rev
  let c := remove_revoked_pcbs h st.core rev
  let d := remove_revoked_pcbs h st.down rev
  ({ up := u.1, down := d.1, core := c.1 }, u.2 + c.2 + d.2)

/-- Modelled from the spec: a `threading.Event` wake handle.  The model
records the absolute instant at which the handle gets set (`none` when
it never does); `Event.wait(timeout)` called at instant `now` with a
non-negative `timeout` returns true iff that instant lies within
`now + timeout`. -/
def event_wait (e : Option Int) (now timeout : Int) : Bool :=
  match e with
  | some t => t ≤ now + timeout
  | none => false

/-- Translation of `SCIONDaemon._wait_for_events` (sciond.py lines
325 to 334): count the events that happen while waiting, each polled
with timeout `max(0, deadline - now)`.  The instant `now` stands for
`SCIONTime.get_time()` during the loop. -/
def wait_for_events (events : List (Option Int)) (deadline now : Int) : Nat :=
  (events.filter fun e => event_wait e now (max 0 (deadline - now))).length

/-- One iteration of the loop of `SCIONDaemon._find_core_segs`
(sciond.py lines 399 to 408): skip a pair whose two endpoints
coincide, else query the core store (last = source, first =
destination) and sort the pair into found segments or the missing
list. -/
def find_core_step (coreStore : List PathSegment) (src_isd dst_isd : Nat)
    (acc : List PathSegment × List (Nat × Nat)) (p : Nat × Nat) :
    List PathSegment × List (Nat × Nat) :=
  if (src_isd, p.1) = (dst_isd, p.2) then acc
  else
    let seg := db_query coreStore (some dst_isd) (some p.2)
      (some src_isd) (some p.1)
    if seg ≠ [] then (acc.1 ++ seg, acc.2) else (acc.1, acc.2 ++ [p])

/-- Translation of `SCIONDaemon._find_core_segs` (sciond.py lines
391 to 409): fold the loop body over the AD pairs, starting from
empty `core_segs` and `missing` lists. -/
def find_core_segs (coreStore : List PathSegment) (src_isd dst_isd : Nat)
    (ad_pairs : List (Nat × Nat)) : List PathSegment × List (Nat × Nat) :=
  ad_pairs.foldl (find_core_step coreStore src_isd dst_isd) ([], [])

/-- Translation of `SCIONDaemon._calc_core_segs` (sciond.py lines
375 to 389): collect the sets of first-hop ADs of the up and down
segments (Python sets, modelled as deduplicated lists), form all pairs
as `itertools.product` does, and delegate to `find_core_segs`. -/
def calc_core_segs (coreStore : List PathSegment) (src_isd dst_isd : Nat)
    (up_segs down_segs : List PathSegment) :
    List PathSegment × List (Nat × Nat) :=
  let src_core_ads := (up_segs.map fun s => s.first_pcbm.ad_id).dedup
  let dst_core_ads := (down_segs.map fun s => s.first_pcbm.ad_id).dedup
  let ad_pairs := src_core_ads.flatMap fun a => dst_core_ads.map fun b => (a, b)
  find_core_segs coreStore src_isd dst_isd ad_pairs

/-- Translation of `SCIONDaemon._get_core_segs` (sciond.py lines
301 to 323): submit one CORE request per AD pair, wait on the attached
events until the deadline (the count returned by the wait is discarded
by the source), then re-query the core store via `find_core_segs` on
its state at that later moment (`coreStore2`).  Returns the found core
segments and the submitted keys. -/
def get_core_segs (coreStore2 : List PathSegment) (src_isd dst_isd : Nat)
    (ad_pairs : List (Nat × Nat)) (deadline now : Int)
    (coreEvent : Nat → Option Int) : List PathSegment × List ReqKey :=
  let keys := ad_pairs.map fun p =>
    { ptype := PST.core, src_isd := src_isd, src_ad := p.1,
      dst_isd := dst_isd, dst_ad := p.2 : ReqKey }
  let events := (List.range ad_pairs.length).map coreEvent
  let _count := wait_for_events events deadline now
  let fc := find_core_segs coreStore2 src_isd dst_isd ad_pairs
  (fc.1, keys)

/-- Result of the path combinator.  `EmptyPath()` is the distinguished
`empty`; full paths produced by the combinator are opaque to the daemon
and carry only an abstract tag. -/
inductive SPath where
  | empty
  | combined (tag : Nat)
deriving DecidableEq, Repr

/-- Environment of one `get_paths` call.  Store fields are the
snapshots the call observes: `coreStore` at the `_calc_core_segs`
query and `coreStore2` at the later re-query inside `_get_core_segs`
(replies may have arrived in between).  `nowStart`, `nowWait` and
`nowCoreWait` are the instants of the deadline computation and of the
two waits.  `updownEvent` and `coreEvent` give the set-instants of the
wake handles.  `shortcut` and `corePaths` stand for the pure lib
functions `PathCombinator.build_shortcut_paths` and
`PathCombinator.build_core_paths`, modelled from the spec as opaque
pure functions since `lib.packet.path` is not under `src/`. -/
structure GPEnv where
  localIsd : Nat
  localAd : Nat
  upStore : List PathSegment
  downStore : List PathSegment
  coreStore : List PathSegment
  coreStore2 : List PathSegment
  nowStart : Int
  nowWait : Int
  nowCoreWait : Int
  updownEvent : Option Int
  coreEvent : Nat → Option Int
  shortcut : List PathSegment → List PathSegment → List SPath
  corePaths : PathSegment → PathSegment → List PathSegment → List SPath

/-- Observable outcome of `get_paths`: the returned path list and the
keys submitted to the request coordinator (`self.requests.put`). -/
structure GPResult where
  paths : List SPath
  submitted : List ReqKey
deriving DecidableEq, Repr

/-- The UP_DOWN request key built at the top of `get_paths`. -/
def updown_key (env : GPEnv) (dst_isd dst_ad : Nat) : ReqKey :=
  { ptype := PST.up_down, src_isd := env.localIsd, src_ad := env.localAd,
    dst_isd := dst_isd, dst_ad := dst_ad }

/-- Translation of the segment gathering and combination part of
`SCIONDaemon.get_paths` (sciond.py lines 286 to 299): snapshot the up
and down stores, compute known and missing core segments, fetch the
missing ones with the remaining deadline, then run
`build_shortcut_paths` plus `build_core_paths` over every up/down
pair. -/
def build_full_paths (env : GPEnv) (dst_isd dst_ad : Nat) : GPResult :=
  let deadline := env.nowStart + TIMEOUT
  let up_segs := db_query env.upStore none none none none
  let down_segs := db_query env.downStore none none (some dst_isd) (some dst_ad)
  let cm := calc_core_segs env.coreStore env.localIsd dst_isd up_segs down_segs
  let r :=
    if cm.2 = [] then (cm.1, ([] : List ReqKey))
    else
      let g := get_core_segs env.coreStore2 env.localIsd dst_isd cm.2
        deadline env.nowCoreWait env.coreEvent
      (cm.1 ++ g.1, g.2)
  let full := env.shortcut up_segs down_segs ++
    up_segs.flatMap fun u => down_segs.flatMap fun d => env.corePaths u d r.1
  { paths := full, submitted := updown_key env dst_isd dst_ad :: r.2 }

/-- Translation of `SCIONDaemon.get_paths` (sciond.py lines 265 to
299): return `[EmptyPath()]` at once when the destination is the local
(ISD, AD); otherwise submit the UP_DOWN key with a fresh wake handle,
return `[]` when the wait ends with no event, and otherwise gather and
combine segments. -/
def get_paths (env : GPEnv) (dst_isd dst_ad : Nat) : GPResult :=
  if (env.localIsd, env.localAd) = (dst_isd, dst_ad) then
    { paths := [SPath.empty], submitted := [] }
  else
    let deadline := env.nowStart + TIMEOUT
    if wait_for_events [env.updownEvent] deadline env.nowWait = 0 then
      { paths := [], submitted := [updown_key env dst_isd dst_ad] }
    else
      build_full_paths env dst_isd dst_ad

/-- Translation of `SCIONDaemon._fetch_segments` (sciond.py lines 353
to 367).  The service discovery result stands for
`self.dns_query_topo(PATH_SERVICE)[0]`: `Except.error` is the raised
`SCIONServiceLookupError`, caught by the source, which then returns
having sent nothing.  On success exactly one path request (server
address paired with the `PathSegmentInfo` carrying the key fields) is
sent.  The function itself never fails: the output is the list of sent
messages. -/
def fetch_segments (key : ReqKey) (psLookup : Except Unit Nat) :
    List (Nat × ReqKey) :=
  match psLookup with
  | .error _ => []
  | .ok ps => [(ps, key)]

/-- Translation of the port field encoding in
`SCIONDaemon._api_handle_path_request` (sciond.py line 213):
`struct.pack("H", port)` uses native byte order and size, which on the
reference little-endian platforms emits the low byte first. -/
def pack_H_native (x : Nat) : List Nat :=
  [x % 256, x / 256 % 256]

/-- Big-endian 2-byte encoding, as the wire format in section 4.6 of
the spec prescribes for `fh_port`. -/
def pack_be16 (x : Nat) : List Nat :=
  [x / 256 % 256, x % 256]

/-- UDP port constant `lib.defines.SCION_UDP_PORT`, the value packed
into the `fh_port` field by the source. -/
def SCION_UDP_PORT : Nat := 30040

/-- Translation of the interface word built in
`SCIONDaemon._api_handle_path_request` (sciond.py line 217):
`(isd_ad.isd << 20) + (isd_ad.ad & 0xFFFFF)`. -/
def isd_ad_bits (isd ad : Nat) : Nat :=
  (isd <<< 20) + (ad &&& 0xFFFFF)

/-- The 32-bit word the spec (section 3) prescribes for an (ISD, AD)
pair: `(ISD << 20) | (AD & 0xFFFFF)`. -/
def isd_ad_word_spec (isd ad : Nat) : Nat :=
  (isd <<< 20) ||| (ad &&& 0xFFFFF)

/-! ## Helper lemmas -/

/-- Splitting a list by a Bool predicate splits its length. -/
theorem length_filter_not_add {α : Type} (l : List α) (p : α → Bool) :
    (l.filter fun a => !(p a)).length + (l.filter p).length = l.length := by
  induction l with
  | nil => rfl
  | cons a l ih =>
    by_cases h : p a <;> simp [List.filter_cons, h] <;> omega

/-- Membership after a store update comes from the old store or is the
updated segment. -/
theorem mem_db_update {db : List PathSegment} {seg s : PathSegment}
    (hs : s ∈ db_update db seg) : s ∈ db ∨ s = seg := by
  unfold db_update at hs
  by_cases h : db.any (fun x => x.hops_hash == seg.hops_hash)
  · rw [if_pos h] at hs
    rcases List.mem_map.1 hs with ⟨x, hx, hxe⟩
    by_cases hh : x.hops_hash == seg.hops_hash
    · right; rw [if_pos hh] at hxe; exact hxe.symm
    · left; rw [if_neg hh] at hxe; exact hxe ▸ hx
  · rw [if_neg h] at hs
    rcases List.mem_append.1 hs with hx | hx
    · exact Or.inl hx
    · exact Or.inr (List.mem_singleton.1 hx)

/-- Membership after the up classifier: old segment, or the PCB itself
and the guard of `_handle_up_seg` held. -/
theorem mem_handle_up_seg {localIsdAd : Nat × Nat} {up : List PathSegment}
    {pcb s : PathSegment} (hs : s ∈ handle_up_seg localIsdAd up pcb) :
    s ∈ up ∨ (s = pcb ∧ localIsdAd = lastPair pcb) := by
  unfold handle_up_seg at hs
  by_cases h : localIsdAd ≠ lastPair pcb
  · rw [if_pos h] at hs; exact Or.inl hs
  · rw [if_neg h] at hs
    rcases mem_db_update hs with hx | hx
    · exact Or.inl hx
    · exact Or.inr ⟨hx, not_not.1 h⟩

/-- Membership after the down classifier: old segment, or the PCB
itself and the guard of `_handle_down_seg` held. -/
theorem mem_handle_down_seg {localIsdAd : Nat × Nat} {down : List PathSegment}
    {pcb s : PathSegment} (hs : s ∈ handle_down_seg localIsdAd down pcb) :
    s ∈ down ∨ (s = pcb ∧ localIsdAd ≠ lastPair pcb) := by
  unfold handle_down_seg at hs
  by_cases h : localIsdAd = lastPair pcb
  · rw [if_pos h] at hs; exact Or.inl hs
  · rw [if_neg h] at hs
    rcases mem_db_update hs with hx | hx
    · exact Or.inl hx
    · exact Or.inr ⟨hx, h⟩

/-- Membership in the up store after one PCB dispatch. -/
theorem mem_handle_pcb_up {localIsdAd : Nat × Nat} {ty : PST}
    {st : DaemonStores} {pcb s : PathSegment}
    (hs : s ∈ (handle_pcb localIsdAd ty st pcb).up) :
    s ∈ st.up ∨ (s = pcb ∧ localIsdAd = lastPair pcb) := by
  cases ty <;> simp only [handle_pcb] at hs
  · exact mem_handle_up_seg hs
  · exact Or.inl hs
  · exact Or.inl hs
  · exact mem_handle_up_seg hs
  · exact Or.inl hs

/-- Membership in the down store after one PCB dispatch. -/
theorem mem_handle_pcb_down {localIsdAd : Nat × Nat} {ty : PST}
    {st : DaemonStores} {pcb s : PathSegment}
    (hs : s ∈ (handle_pcb localIsdAd ty st pcb).down) :
    s ∈ st.down ∨ (s = pcb ∧ localIsdAd ≠ lastPair pcb) := by
  cases ty <;> simp only [handle_pcb] at hs
  · exact Or.inl hs
  · exact mem_handle_down_seg hs
  · exact Or.inl hs
  · exact mem_handle_down_seg hs
  · exact Or.inl hs

/-- The up-store invariant survives folding the dispatch over any list
of PCBs. -/
theorem foldl_handle_pcb_up_inv (localIsdAd : Nat × Nat) (ty : PST) :
    ∀ (pcbs : List PathSegment) (st : DaemonStores),
      (∀ s ∈ st.up, lastPair s = localIsdAd) →
      ∀ s ∈ (pcbs.foldl (handle_pcb localIsdAd ty) st).up,
        lastPair s = localIsdAd := by
  intro pcbs
  induction pcbs with
  | nil => intro st hst; exact hst
  | cons pcb pcbs ih =>
    intro st hst
    refine ih _ (fun s hs => ?_)
    rcases mem_handle_pcb_up hs with hx | ⟨hx, hg⟩
    · exact hst s hx
    · rw [hx]; exact hg.symm

/-- The down-store invariant survives folding the dispatch over any
list of PCBs. -/
theorem foldl_handle_pcb_down_inv (localIsdAd : Nat × Nat) (ty : PST) :
    ∀ (pcbs : List PathSegment) (st : DaemonStores),
      (∀ s ∈ st.down, lastPair s ≠ localIsdAd) →
      ∀ s ∈ (pcbs.foldl (handle_pcb localIsdAd ty) st).down,
        lastPair s ≠ localIsdAd := by
  intro pcbs
  induction pcbs with
  | nil => intro st hst; exact hst
  | cons pcb pcbs ih =>
    intro st hst
    refine ih _ (fun s hs => ?_)
    rcases mem_handle_pcb_down hs with hx | ⟨hx, hg⟩
    · exact hst s hx
    · rw [hx]; exact fun he => hg he.symm

/-! ## C1 -/

/-- C1: counterexample to the claim as stated.  A PCB arriving in a
reply of type UP whose last hop (2, 2) differs from the local identity
(1, 1) is inserted into neither store, while the claim requires it to
be inserted into the DOWN store. -/
theorem claim1_counterexample :
    ¬ (((⟨⟨2, 2⟩, ⟨2, 2⟩, [], 0⟩ : PathSegment) ∈
          (handle_path_reply (1, 1) ⟨PST.up, 1, 1, 2, 2⟩
            [⟨⟨2, 2⟩, ⟨2, 2⟩, [], 0⟩] ⟨[], [], []⟩).1.down) ↔
        lastPair ⟨⟨2, 2⟩, ⟨2, 2⟩, [], 0⟩ ≠ (1, 1)) := by
  decide

/-- C1 (amended): a PCB routed to the UP classifier (reply type UP or
UP_DOWN) is inserted into the UP store iff its last hop equals the
local (ISD, AD); a PCB routed to the DOWN classifier (reply type DOWN
or UP_DOWN) is inserted into the DOWN store iff its last hop differs;
PCBs of other types leave both stores unchanged; consequently
`handle_path_reply` preserves the invariants that every up-store
segment ends at the local (ISD, AD) and every down-store segment does
not. -/
theorem claim1_store_classification (localIsdAd : Nat × Nat)
    (st : DaemonStores) (ty : PST) (pcb : PathSegment) (info : ReqKey)
    (pcbs : List PathSegment) :
    ((handle_pcb localIsdAd ty st pcb).up =
        if (ty = PST.up ∨ ty = PST.up_down) ∧ localIsdAd = lastPair pcb
        then db_update st.up pcb else st.up)
  ∧ ((handle_pcb localIsdAd ty st pcb).down =
        if (ty = PST.down ∨ ty = PST.up_down) ∧ localIsdAd ≠ lastPair pcb
        then db_update st.down pcb else st.down)
  ∧ ((∀ s ∈ st.up, lastPair s = localIsdAd) →
        ∀ s ∈ (handle_path_reply localIsdAd info pcbs st).1.up,
          lastPair s = localIsdAd)
  ∧ ((∀ s ∈ st.down, lastPair s ≠ localIsdAd) →
        ∀ s ∈ (handle_path_reply localIsdAd info pcbs st).1.down,
          lastPair s ≠ localIsdAd) := by
  refine ⟨?_, ?_, ?_, ?_⟩
  · cases ty <;>
      by_cases h : localIsdAd = lastPair pcb <;>
      simp [handle_pcb, handle_up_seg, h]
  · cases ty <;>
      by_cases h : localIsdAd = lastPair pcb <;>
      simp [handle_pcb, handle_down_seg, h]
  · exact foldl_handle_pcb_up_inv localIsdAd info.ptype pcbs st
  · exact foldl_handle_pcb_down_inv localIsdAd info.ptype pcbs st

/-- C1 (witness): the amended theorem applied to the local identity
(1, 1), an empty initial store and an UP_DOWN reply carrying one PCB
ending at the local AD. -/
theorem claim1_store_classification_witness :
    (∀ s ∈ (⟨[], [], []⟩ : DaemonStores).up, lastPair s = (1, 1)) ∧
    (∀ s ∈ (⟨[], [], []⟩ : DaemonStores).down, lastPair s ≠ ((1, 1) : Nat × Nat)) ∧
    (∀ s ∈ (handle_path_reply (1, 1) ⟨PST.up_down, 1, 1, 2, 2⟩
        [⟨⟨1, 1⟩, ⟨1, 1⟩, [], 0⟩] ⟨[], [], []⟩).1.up, lastPair s = (1, 1)) ∧
    (∀ s ∈ (handle_path_reply (1, 1) ⟨PST.up_down, 1, 1, 2, 2⟩
        [⟨⟨1, 1⟩, ⟨1, 1⟩, [], 0⟩] ⟨[], [], []⟩).1.down,
      lastPair s ≠ ((1, 1) : Nat × Nat)) :=
  ⟨by decide, by decide,
   (claim1_store_classification (1, 1) ⟨[], [], []⟩ PST.up_down
      ⟨⟨1, 1⟩, ⟨1, 1⟩, [], 0⟩ ⟨PST.up_down, 1, 1, 2, 2⟩
      [⟨⟨1, 1⟩, ⟨1, 1⟩, [], 0⟩]).2.2.1 (by decide),
   (claim1_store_classification (1, 1) ⟨[], [], []⟩ PST.up_down
      ⟨⟨1, 1⟩, ⟨1, 1⟩, [], 0⟩ ⟨PST.up_down, 1, 1, 2, 2⟩
      [⟨⟨1, 1⟩, ⟨1, 1⟩, [], 0⟩]).2.2.2 (by decide)⟩

/-! ## C2 -/

/-- Characterisation of the modelled `delete_all`: when listed
identities coincide with a predicate on the stored segments, the
deletion keeps exactly the segments failing the predicate and reports
the number of removed ones. -/
theorem db_delete_all_filter (db : List PathSegment) (rl : List Nat)
    (p : PathSegment → Bool)
    (hiff : ∀ s ∈ db, (s.hops_hash ∈ rl ↔ p s = true)) :
    db_delete_all db rl = (db.filter fun s => !(p s), (db.filter p).length) := by
  have hfe : (db.filter fun s => decide (s.hops_hash ∉ rl)) =
      db.filter fun s => !(p s) :=
    List.filter_congr fun s hs => by
      by_cases hr : p s = true
      · simp [hr, (hiff s hs).2 hr]
      · have hnm : s.hops_hash ∉ rl := fun hin => hr ((hiff s hs).1 hin)
        have hf : p s = false := Bool.eq_false_iff.2 hr
        simp [hnm, hf]
  have hlen := length_filter_not_add db p
  simp only [db_delete_all]
  rw [hfe]
  simp only [Prod.mk.injEq, true_and]
  omega

/-- Characterisation of one store sweep: under the store invariant that
`hops_hash` is unique within the store, `_remove_revoked_pcbs` keeps
exactly the non-revoked segments and reports the number of revoked
ones. -/
theorem remove_revoked_pcbs_eq (h : Nat → Nat) (rev : Nat)
    (db : List PathSegment)
    (hn : (db.map PathSegment.hops_hash).Nodup) :
    remove_revoked_pcbs h db rev =
      (db.filter fun s => !(seg_revoked h rev s),
       (db.filter (seg_revoked h rev)).length) := by
  have hinj := List.inj_on_of_nodup_map hn
  have hiff : ∀ s ∈ db,
      (s.hops_hash ∈ (db.flatMap fun seg =>
          (seg.iftokens.filter fun ift =>
            hash_chain_verify h rev ift N_TOKENS_CHECK).map
            fun _ => seg.hops_hash) ↔ seg_revoked h rev s = true) := by
    intro s hs
    constructor
    · intro hin
      rcases List.mem_flatMap.1 hin with ⟨seg, hseg, hmap⟩
      rcases List.mem_map.1 hmap with ⟨t, ht, hte⟩
      have hseq : s = seg := hinj hs hseg hte.symm
      rcases List.mem_filter.1 ht with ⟨htm, htv⟩
      subst hseq
      exact List.any_eq_true.2 ⟨t, htm, htv⟩
    · intro hrev
      rcases List.any_eq_true.1 hrev with ⟨t, htm, htv⟩
      exact List.mem_flatMap.2
        ⟨s, hs, List.mem_map.2 ⟨t, List.mem_filter.2 ⟨htm, htv⟩, rfl⟩⟩
  exact db_delete_all_filter db _ (seg_revoked h rev) hiff

/-- C2: with `hops_hash` unique within each store (store invariant 2),
`handle_revocation` removes from each of the three stores exactly the
segments carrying at least one interface token for which the
revocation token verifies within `N_TOKENS_CHECK = 20` iterations, and
the reported total is the number of deletions performed. -/
theorem claim2_revocation_exact (h : Nat → Nat) (st : DaemonStores) (rev : Nat)
    (hu : (st.up.map PathSegment.hops_hash).Nodup)
    (hc : (st.core.map PathSegment.hops_hash).Nodup)
    (hd : (st.down.map PathSegment.hops_hash).Nodup) :
    (handle_revocation h st rev).1.up =
        (st.up.filter fun s => !(seg_revoked h rev s))
  ∧ (handle_revocation h st rev).1.core =
        (st.core.filter fun s => !(seg_revoked h rev s))
  ∧ (handle_revocation h st rev).1.down =
        (st.down.filter fun s => !(seg_revoked h rev s))
  ∧ (handle_revocation h st rev).2 =
        (st.up.filter (seg_revoked h rev)).length +
        (st.core.filter (seg_revoked h rev)).length +
        (st.down.filter (seg_revoked h rev)).length := by
  unfold handle_revocation
  rw [remove_revoked_pcbs_eq h rev st.up hu,
    remove_revoked_pcbs_eq h rev st.core hc,
    remove_revoked_pcbs_eq h rev st.down hd]
  exact ⟨rfl, rfl, rfl, rfl⟩

/-- C2 (witness): hash = successor, revocation token 3; the up-store
segment carries interface token 5 = hash applied twice to 3 and is
removed; the down-store segment carries the unreachable token 1000 and
stays; the reported total is 1. -/
theorem claim2_revocation_exact_witness :
    (([⟨⟨1, 11⟩, ⟨1, 10⟩, [5], 100⟩] : List PathSegment).map
        PathSegment.hops_hash).Nodup ∧
    (handle_revocation Nat.succ
        ⟨[⟨⟨1, 11⟩, ⟨1, 10⟩, [5], 100⟩], [⟨⟨2, 21⟩, ⟨2, 20⟩, [1000], 200⟩], []⟩
        3).1.up =
      (([⟨⟨1, 11⟩, ⟨1, 10⟩, [5], 100⟩] : List PathSegment).filter
        fun s => !(seg_revoked Nat.succ 3 s)) ∧
    (handle_revocation Nat.succ
        ⟨[⟨⟨1, 11⟩, ⟨1, 10⟩, [5], 100⟩], [⟨⟨2, 21⟩, ⟨2, 20⟩, [1000], 200⟩], []⟩
        3).2 =
      (([⟨⟨1, 11⟩, ⟨1, 10⟩, [5], 100⟩] : List PathSegment).filter
          (seg_revoked Nat.succ 3)).length +
      (([] : List PathSegment).filter (seg_revoked Nat.succ 3)).length +
      (([⟨⟨2, 21⟩, ⟨2, 20⟩, [1000], 200⟩] : List PathSegment).filter
          (seg_revoked Nat.succ 3)).length := by
  have hthm := claim2_revocation_exact Nat.succ
    ⟨[⟨⟨1, 11⟩, ⟨1, 10⟩, [5], 100⟩], [⟨⟨2, 21⟩, ⟨2, 20⟩, [1000], 200⟩], []⟩
    3 (by decide) (by decide) (by decide)
  exact ⟨by decide, hthm.1, hthm.2.2.2⟩

/-! ## C3 -/

/-- C3: a `get_paths` call for the local (ISD, AD) itself returns
exactly the one-element list holding the empty path and submits
nothing to the request coordinator, whatever the store contents,
events, times and combinator functions are. -/
theorem claim3_local_empty_path (env : GPEnv) :
    get_paths env env.localIsd env.localAd =
      { paths := [SPath.empty], submitted := [] } := by
  simp [get_paths]

/-! ## C4 -/

/-- C4: when the destination differs from the local identity and the
wait on the UP_DOWN wake handle reaches the deadline with no event,
`get_paths` returns the empty path list (and, the embedding being a
total function, no exception): the only effect is the one submitted
UP_DOWN key. -/
theorem claim4_timeout_empty (env : GPEnv) (dst_isd dst_ad : Nat)
    (hne : (env.localIsd, env.localAd) ≠ (dst_isd, dst_ad))
    (hto : wait_for_events [env.updownEvent] (env.nowStart + TIMEOUT)
      env.nowWait = 0) :
    get_paths env dst_isd dst_ad =
      { paths := [], submitted := [updown_key env dst_isd dst_ad] } := by
  simp [get_paths, hne, hto]

/-- C4 (witness): a never-set wake handle with local identity (1, 10)
and destination (2, 20). -/
theorem claim4_timeout_empty_witness :
    ((1, 10) : Nat × Nat) ≠ ((2, 20) : Nat × Nat) ∧
    wait_for_events [(none : Option Int)] ((0 : Int) + TIMEOUT) 0 = 0 ∧
    get_paths
      ⟨1, 10, [], [], [], [], 0, 0, 0, none, fun _ => none,
        fun _ _ => [], fun _ _ _ => []⟩ 2 20 =
      { paths := [],
        submitted := [⟨PST.up_down, 1, 10, 2, 20⟩] } :=
  ⟨by decide, by decide,
   claim4_timeout_empty
     ⟨1, 10, [], [], [], [], 0, 0, 0, none, fun _ => none,
       fun _ _ => [], fun _ _ _ => []⟩ 2 20 (by decide) (by decide)⟩

/-! ## C6 -/

/-- C6: when the service discovery of the path server fails with a
lookup error, the fetch step sends no outbound path request and
returns normally (the caught `SCIONServiceLookupError` is the
`Except.error` argument; the empty output list is the absence of any
sent message), leaving the pending entry to expire at its deadline. -/
theorem claim6_fetch_lookup_error (key : ReqKey) (e : Unit) :
    fetch_segments key (Except.error e) = [] := rfl

/-! ## C7 -/

/-- C7: the source packs the forwarding-hop port with
`struct.pack("H", ...)`, which is native byte order: on the reference
little-endian platforms the emitted 2 bytes are low byte first, not
the big-endian order the wire format of the spec prescribes.  At the
actual packed value `SCION_UDP_PORT = 30040 = 0x7558` the two
encodings differ. -/
theorem claim7_port_not_big_endian :
    pack_H_native SCION_UDP_PORT ≠ pack_be16 SCION_UDP_PORT ∧
    pack_H_native SCION_UDP_PORT = [0x58, 0x75] ∧
    pack_be16 SCION_UDP_PORT = [0x75, 0x58] := by
  decide

/-! ## C8 -/

/-- C8: for a 12-bit ISD and a 20-bit AD the interface word
`(isd << 20) + (ad & 0xFFFFF)` built by the source equals the
specified 32-bit word `(isd << 20) | (ad & 0xFFFFF)` (the two operands
occupy disjoint bit ranges) and fits in 4 bytes. -/
theorem claim8_isd_ad_word (isd ad : Nat) (hisd : isd < 2 ^ 12)
    (had : ad < 2 ^ 20) :
    isd_ad_bits isd ad = isd_ad_word_spec isd ad ∧
    isd_ad_bits isd ad < 2 ^ 32 := by
  have hsh : isd <<< 20 = 2 ^ 20 * isd := by
    rw [Nat.shiftLeft_eq]; ring
  have hand : ad &&& 0xFFFFF = ad % 2 ^ 20 := by
    have : (0xFFFFF : Nat) = 2 ^ 20 - 1 := by norm_num
    rw [this, Nat.and_pow_two_sub_one_eq_mod]
  have hlt : ad % 2 ^ 20 < 2 ^ 20 := Nat.mod_lt _ (by norm_num)
  constructor
  · unfold isd_ad_bits isd_ad_word_spec
    rw [hsh, hand]
    exact Nat.mul_add_lt_is_or hlt isd
  · unfold isd_ad_bits
    rw [hsh, hand]
    have h12 : isd < 4096 := by norm_num at hisd; exact hisd
    have h20 : ad % 2 ^ 20 < 1048576 := by norm_num at hlt; exact hlt
    norm_num
    omega

/-- C8 (witness): ISD 1, AD 5. -/
theorem claim8_isd_ad_word_witness :
    (1 : Nat) < 2 ^ 12 ∧ (5 : Nat) < 2 ^ 20 ∧
    (isd_ad_bits 1 5 = isd_ad_word_spec 1 5 ∧ isd_ad_bits 1 5 < 2 ^ 32) :=
  ⟨by decide, by decide, claim8_isd_ad_word 1 5 (by decide) (by decide)⟩

/-! ## C5 -/

/-- C5: a timeout while waiting for requested core segments does not
abort `get_paths`.  First conjunct: the outcome does not depend on the
core wake handles or on the instant of the core wait at all (the source
discards the count returned by that wait).  Second conjunct: when the
UP_DOWN wait fired and core pairs are missing, the returned paths are
the combinator run over the up and down snapshots together with the
known core segments plus whatever the re-query of the core store (its
state `coreStore2` at that later moment) yields. -/
theorem claim5_core_timeout_no_abort (env : GPEnv) (dst_isd dst_ad : Nat)
    (g : Nat → Option Int) (t : Int)
    (hne : (env.localIsd, env.localAd) ≠ (dst_isd, dst_ad))
    (hwake : wait_for_events [env.updownEvent] (env.nowStart + TIMEOUT)
      env.nowWait ≠ 0)
    (hmiss : (calc_core_segs env.coreStore env.localIsd dst_isd
        (db_query env.upStore none none none none)
        (db_query env.downStore none none (some dst_isd) (some dst_ad))).2 ≠ []) :
    get_paths { env with coreEvent := g, nowCoreWait := t } dst_isd dst_ad =
      get_paths env dst_isd dst_ad ∧
    (get_paths env dst_isd dst_ad).paths =
      (let up_segs := db_query env.upStore none none none none
       let down_segs := db_query env.downStore none none (some dst_isd)
         (some dst_ad)
       let cm := calc_core_segs env.coreStore env.localIsd dst_isd
         up_segs down_segs
       let core_segs := cm.1 ++
         (find_core_segs env.coreStore2 env.localIsd dst_isd cm.2).1
       env.shortcut up_segs down_segs ++
         up_segs.flatMap fun u => down_segs.flatMap fun d =>
           env.corePaths u d core_segs) := by
  constructor
  · rfl
  · simp only [get_paths, if_neg hne, if_neg hwake, build_full_paths,
      if_neg hmiss, get_core_segs]

/-- C5 (witness): one cached up segment and one cached down segment
whose first-hop ADs 11 and 21 form a core pair missing from the empty
core store; the core wake handles are exchanged for handles set at 3
and the core wait instant moved to 7 without changing the outcome. -/
theorem claim5_core_timeout_no_abort_witness :
    ((1, 10) : Nat × Nat) ≠ ((2, 20) : Nat × Nat) ∧
    wait_for_events [(some 0 : Option Int)] ((0 : Int) + TIMEOUT) 0 ≠ 0 ∧
    (calc_core_segs [] 1 2
      (db_query [⟨⟨1, 11⟩, ⟨1, 10⟩, [], 1⟩] none none none none)
      (db_query [⟨⟨2, 21⟩, ⟨2, 20⟩, [], 2⟩] none none (some 2) (some 20))).2 ≠ [] ∧
    get_paths
      { (⟨1, 10, [⟨⟨1, 11⟩, ⟨1, 10⟩, [], 1⟩], [⟨⟨2, 21⟩, ⟨2, 20⟩, [], 2⟩],
          [], [], 0, 0, 0, some 0, fun _ => none,
          fun _ _ => [], fun _ _ _ => []⟩ : GPEnv) with
        coreEvent := fun _ => some 3, nowCoreWait := 7 } 2 20 =
      get_paths
        (⟨1, 10, [⟨⟨1, 11⟩, ⟨1, 10⟩, [], 1⟩], [⟨⟨2, 21⟩, ⟨2, 20⟩, [], 2⟩],
          [], [], 0, 0, 0, some 0, fun _ => none,
          fun _ _ => [], fun _ _ _ => []⟩ : GPEnv) 2 20 :=
  ⟨by decide, by decide, by decide,
   (claim5_core_timeout_no_abort
     (⟨1, 10, [⟨⟨1, 11⟩, ⟨1, 10⟩, [], 1⟩], [⟨⟨2, 21⟩, ⟨2, 20⟩, [], 2⟩],
        [], [], 0, 0, 0, some 0, fun _ => none,
        fun _ _ => [], fun _ _ _ => []⟩ : GPEnv) 2 20
     (fun _ => some 3) 7 (by decide) (by decide) (by decide)).1⟩

/-! ## C9 -/

/-- The loop of `_find_core_segs` never adds a shared-core pair to the
missing list. -/
theorem find_core_foldl_missing_ne (coreStore : List PathSegment)
    (src_isd dst_isd : Nat) :
    ∀ (ad_pairs : List (Nat × Nat)) (acc : List PathSegment × List (Nat × Nat)),
      (∀ p ∈ acc.2, (src_isd, p.1) ≠ (dst_isd, p.2)) →
      ∀ p ∈ (ad_pairs.foldl (find_core_step coreStore src_isd dst_isd) acc).2,
        (src_isd, p.1) ≠ (dst_isd, p.2) := by
  intro ad_pairs
  induction ad_pairs with
  | nil => intro acc hacc; exact hacc
  | cons q l ih =>
    intro acc hacc
    refine ih _ ?_
    unfold find_core_step
    by_cases hq : (src_isd, q.1) = (dst_isd, q.2)
    · rw [if_pos hq]; exact hacc
    · rw [if_neg hq]
      by_cases hs : db_query coreStore (some dst_isd) (some q.2)
          (some src_isd) (some q.1) ≠ []
      · rw [if_pos hs]; exact hacc
      · rw [if_neg hs]
        intro p hp
        rcases List.mem_append.1 hp with hx | hx
        · exact hacc p hx
        · rw [List.mem_singleton.1 hx]; exact hq

/-- The loop of `_find_core_segs` computes the same accumulator when
the shared-core pairs are removed from its input beforehand. -/
theorem find_core_foldl_filter (coreStore : List PathSegment)
    (src_isd dst_isd : Nat) :
    ∀ (ad_pairs : List (Nat × Nat)) (acc : List PathSegment × List (Nat × Nat)),
      ad_pairs.foldl (find_core_step coreStore src_isd dst_isd) acc =
        (ad_pairs.filter fun p =>
            decide ((src_isd, p.1) ≠ (dst_isd, p.2))).foldl
          (find_core_step coreStore src_isd dst_isd) acc := by
  intro ad_pairs
  induction ad_pairs with
  | nil => intro acc; rfl
  | cons q l ih =>
    intro acc
    by_cases hq : (src_isd, q.1) = (dst_isd, q.2)
    · have hstep : find_core_step coreStore src_isd dst_isd acc q = acc := by
        unfold find_core_step; rw [if_pos hq]
      have hfq : (decide ((src_isd, q.1) ≠ (dst_isd, q.2))) = false := by
        simp [hq]
      rw [List.foldl_cons, hstep, List.filter_cons, hfq]
      rw [if_neg (by simp : ¬(false = true))]
      exact ih acc
    · simp only [List.foldl_cons, List.filter_cons]
      rw [if_pos (by simp [hq])]
      simp only [List.foldl_cons, ih]

/-- Every CORE key submitted by `get_paths` comes from the missing
list of `_calc_core_segs`. -/
theorem get_paths_submitted_core (env : GPEnv) (dst_isd dst_ad : Nat) :
    ∀ k ∈ (get_paths env dst_isd dst_ad).submitted,
      k = updown_key env dst_isd dst_ad ∨
      ∃ p ∈ (calc_core_segs env.coreStore env.localIsd dst_isd
          (db_query env.upStore none none none none)
          (db_query env.downStore none none (some dst_isd) (some dst_ad))).2,
        k = { ptype := PST.core, src_isd := env.localIsd, src_ad := p.1,
              dst_isd := dst_isd, dst_ad := p.2 } := by
  intro k hk
  by_cases h1 : (env.localIsd, env.localAd) = (dst_isd, dst_ad)
  · simp [get_paths, h1] at hk
  · by_cases h2 : wait_for_events [env.updownEvent] (env.nowStart + TIMEOUT)
        env.nowWait = 0
    · simp [get_paths, h1, h2] at hk
      exact Or.inl hk
    · simp only [get_paths, if_neg h1, if_neg h2, build_full_paths] at hk
      by_cases h3 : (calc_core_segs env.coreStore env.localIsd dst_isd
          (db_query env.upStore none none none none)
          (db_query env.downStore none none (some dst_isd) (some dst_ad))).2 = []
      · simp only [h3, if_pos] at hk
        simp at hk
        exact Or.inl hk
      · simp only [if_neg h3, get_core_segs] at hk
        simp at hk
        rcases hk with hk | ⟨a, b, hab, hke⟩
        · exact Or.inl hk
        · exact Or.inr ⟨(a, b), hab, hke.symm⟩

/-- C9: `_find_core_segs` omits from both of its outputs every pair
whose source endpoint equals its destination endpoint: its outputs
equal those computed from the input with the shared-core pairs
filtered away, a shared-core pair never appears in the missing list,
and consequently no CORE key submitted by `get_paths` has identical
source and destination. -/
theorem claim9_shared_core_excluded (coreStore : List PathSegment)
    (src_isd dst_isd : Nat) (ad_pairs : List (Nat × Nat)) (env : GPEnv)
    (dst_isd2 dst_ad2 : Nat) :
    (∀ p ∈ (find_core_segs coreStore src_isd dst_isd ad_pairs).2,
        (src_isd, p.1) ≠ (dst_isd, p.2))
  ∧ (find_core_segs coreStore src_isd dst_isd ad_pairs =
        find_core_segs coreStore src_isd dst_isd
          (ad_pairs.filter fun p => decide ((src_isd, p.1) ≠ (dst_isd, p.2))))
  ∧ (∀ k ∈ (get_paths env dst_isd2 dst_ad2).submitted,
        k.ptype = PST.core → (k.src_isd, k.src_ad) ≠ (k.dst_isd, k.dst_ad)) := by
  refine ⟨?_, ?_, ?_⟩
  · exact find_core_foldl_missing_ne coreStore src_isd dst_isd ad_pairs
      ([], []) (by simp)
  · exact find_core_foldl_filter coreStore src_isd dst_isd ad_pairs ([], [])
  · intro k hk hcore
    rcases get_paths_submitted_core env dst_isd2 dst_ad2 k hk with hke | ⟨p, hp, hke⟩
    · rw [hke] at hcore
      simp [updown_key] at hcore
    · have hne := find_core_foldl_missing_ne env.coreStore env.localIsd dst_isd2
        _ ([], []) (by simp) p hp
      rw [hke]
      simpa using hne

/-- C9 (witness): the pair (7, 7) between ISD 1 and ISD 1 is a
shared-core pair and is dropped from both outputs; the concrete
`get_paths` call submits only keys with distinct endpoints. -/
theorem claim9_shared_core_excluded_witness :
    (∀ p ∈ (find_core_segs [] 1 1 [(7, 7)]).2, ((1, p.1) : Nat × Nat) ≠ (1, p.2))
  ∧ (find_core_segs [] 1 1 [(7, 7)] =
      find_core_segs [] 1 1
        ([(7, 7)].filter fun p => decide (((1, p.1) : Nat × Nat) ≠ (1, p.2))))
  ∧ (∀ k ∈ (get_paths
        (⟨1, 10, [⟨⟨1, 11⟩, ⟨1, 10⟩, [], 1⟩], [⟨⟨2, 21⟩, ⟨2, 20⟩, [], 2⟩],
          [], [], 0, 0, 0, some 0, fun _ => none,
          fun _ _ => [], fun _ _ _ => []⟩ : GPEnv) 2 20).submitted,
      k.ptype = PST.core → (k.src_isd, k.src_ad) ≠ (k.dst_isd, k.dst_ad)) :=
  claim9_shared_core_excluded [] 1 1 [(7, 7)]
    (⟨1, 10, [⟨⟨1, 11⟩, ⟨1, 10⟩, [], 1⟩], [⟨⟨2, 21⟩, ⟨2, 20⟩, [], 2⟩],
      [], [], 0, 0, 0, some 0, fun _ => none,
      fun _ _ => [], fun _ _ _ => []⟩ : GPEnv) 2 20

/-! ## C10 -/

/-- C10: `_wait_for_events` clamps the timeout at zero instead of
skipping events, so with a deadline already in the past it still polls
every event and returns the number of events set at that instant
(first conjunct, `event_wait e now 0` being the zero-timeout poll);
consequently a `get_paths` call whose wake handle was set before the
wait proceeds to the segment gathering and combination step even when
its wall-clock deadline has already elapsed (second conjunct). -/
theorem claim10_wait_counts_set_events :
    (∀ (events : List (Option Int)) (deadline now : Int), deadline ≤ now →
      wait_for_events events deadline now =
        (events.filter fun e => event_wait e now 0).length)
  ∧ (∀ (env : GPEnv) (dst_isd dst_ad : Nat) (ts : Int),
      (env.localIsd, env.localAd) ≠ (dst_isd, dst_ad) →
      env.updownEvent = some ts → ts ≤ env.nowWait →
      env.nowStart + TIMEOUT ≤ env.nowWait →
      get_paths env dst_isd dst_ad = build_full_paths env dst_isd dst_ad) := by
  constructor
  · intro events deadline now hpast
    have hmax : max 0 (deadline - now) = 0 := by omega
    unfold wait_for_events
    rw [hmax]
  · intro env dst_isd dst_ad ts hne he hts hdl
    have hw : wait_for_events [env.updownEvent] (env.nowStart + TIMEOUT)
        env.nowWait = 1 := by
      have hmx : (0 : Int) ≤ max 0 (env.nowStart + TIMEOUT - env.nowWait) :=
        le_max_left 0 _
      unfold wait_for_events event_wait
      rw [he]
      simp only [List.filter_cons, List.filter_nil]
      rw [if_pos (by simp only [decide_eq_true_eq]; omega)]
      rfl
    simp [get_paths, hne, hw]

/-- C10 (witness): with deadline 3 already past at instant 5, the wait
still reports the set event among `[some 0, none]`; a `get_paths` call
whose handle was set at 0 before the wait instant 10 proceeds to the
build step although its deadline 0 + 5 elapsed at instant 10. -/
theorem claim10_wait_counts_set_events_witness :
    ((3 : Int) ≤ 5 ∧
      wait_for_events [some 0, none] 3 5 =
        (([some 0, none] : List (Option Int)).filter
          fun e => event_wait e 5 0).length)
  ∧ get_paths
      (⟨1, 10, [], [], [], [], 0, 10, 10, some 0, fun _ => none,
        fun _ _ => [], fun _ _ _ => []⟩ : GPEnv) 2 20 =
    build_full_paths
      (⟨1, 10, [], [], [], [], 0, 10, 10, some 0, fun _ => none,
        fun _ _ => [], fun _ _ _ => []⟩ : GPEnv) 2 20 :=
  ⟨⟨by decide,
    claim10_wait_counts_set_events.1 [some 0, none] 3 5 (by decide)⟩,
   claim10_wait_counts_set_events.2
     (⟨1, 10, [], [], [], [], 0, 10, 10, some 0, fun _ => none,
        fun _ _ => [], fun _ _ _ => []⟩ : GPEnv) 2 20 0
     (by decide) rfl (by decide) (by decide)⟩

end Sciond
